import Mathlib

/-!
# Verification of the per-user todo persistence and mutation layer

Shallow embedding of `src/server.js` (multi-user variant): the per-user
cache (`userDataCache`), the durable store (`loadUserTodos` /
`saveUserTodos`) and the HTTP handlers for list / get / stats / create /
update / delete, together with proofs of the testable properties from the
specification.

Modelling conventions:
* The `Map` cache and the directory of per-user files become functions
  `String → Option _`; a durable slot is either a parseable snapshot
  (`DiskSlot.good`) or unparseable bytes (`DiskSlot.corrupt`).
* JavaScript string operations (`trim`, `toLowerCase`, `includes`) are
  embedded as executable functions on `List Char`.
* `fs.writeFileSync` either succeeds or throws; the Boolean `ok` parameter
  of the embedded `saveUserTodos` selects the branch (fault injection for
  the `PersistFailure` analysis).
* The handlers mutate the object returned by `loadUserTodos` in place.
  On every load path except the corrupt-snapshot fallback that object *is*
  the cache entry, so the in-place mutation is visible in the cache even
  when the subsequent save throws.  `commitInPlace` models exactly this
  aliasing.
-/

namespace TodoServer

/-! ## JavaScript string primitives -/

/-- Whether `needle` is a leading segment of `hay` (char lists). -/
def charsStartWith : List Char → List Char → Bool
  | [], _ => true
  | _ :: _, [] => false
  | a :: as, b :: bs => a == b && charsStartWith as bs

/-- JS `hay.includes(needle)`: `needle` occurs contiguously in `hay`. -/
def charsContain : List Char → List Char → Bool
  | [], needle => needle.isEmpty
  | c :: cs, needle => charsStartWith needle (c :: cs) || charsContain cs needle

/-- JS `String.prototype.includes`. -/
def strContains (hay needle : String) : Bool :=
  charsContain hay.toList needle.toList

/-- JS `String.prototype.trim`: strip leading and trailing whitespace. -/
def jsTrim (s : String) : String :=
  String.mk (((s.toList.dropWhile Char.isWhitespace).reverse.dropWhile
      Char.isWhitespace).reverse)

/-- JS `String.prototype.toLowerCase` (ASCII case fold, as used here). -/
def jsToLower (s : String) : String :=
  String.mk (s.toList.map Char.toLower)

/-! ## Data model -/

/-- Priorities accepted by `validatePriority` (`["low","medium","high"]`). -/
inductive Priority where
  | low
  | medium
  | high
deriving DecidableEq, Repr

/-- One todo record as created by the POST handler. -/
structure Todo where
  id : Nat
  title : String
  completed : Bool
  priority : Priority
  createdAt : String
deriving DecidableEq, Repr

/-- One user in-memory state: the value type of `userDataCache`. -/
structure UserData where
  todos : List Todo
  nextId : Nat
deriving DecidableEq, Repr

/-- A durable slot (`user_data/todos_<userId>.json`): either a snapshot
that `JSON.parse` accepts, or bytes it rejects. -/
inductive DiskSlot where
  | good (data : UserData)
  | corrupt
deriving DecidableEq, Repr

/-- Whole-process state: the in-memory `userDataCache` plus the per-user
durable slots. -/
structure Sys where
  cache : String → Option UserData
  disk : String → Option DiskSlot

/-- Source `getUserDataFile`: `path.join(DATA_DIR, "todos_" + userId + ".json")`. -/
def getUserDataFile (userId : String) : String :=
  "user_data/todos_" ++ userId ++ ".json"

/-- Fresh process over whatever durable slots exist. -/
def bootSys (disk : String → Option DiskSlot) : Sys :=
  { cache := fun _ => none, disk := disk }

/-- Fresh process, no durable slots at all. -/
def emptySys : Sys := bootSys (fun _ => none)

/-! ## Durable store and cache -/

/-- The `parsed.todos || []` / `parsed.nextId || 1` defaults applied to a
parsed snapshot (`0` is falsy in JS, so a stored `nextId` of `0` also
becomes `1`). -/
def normalizeSnapshot (d : UserData) : UserData :=
  { todos := d.todos, nextId := if d.nextId = 0 then 1 else d.nextId }

/-- Source `loadUserTodos(userId)`: cache hit returns the cached state; otherwise
the durable slot is read.  A parseable slot is normalized, cached and
returned; a missing slot yields `{todos: [], nextId: 0}` which is cached;
an unparseable slot throws inside `JSON.parse`, and the `catch` branch
returns `{todos: [], nextId: 1}` WITHOUT caching it. -/
def loadUserTodos (s : Sys) (userId : String) : UserData × Sys :=
  match s.cache userId with
  | some d => (d, s)
  | none =>
    match s.disk userId with
    | some (DiskSlot.good parsed) =>
        let userData := normalizeSnapshot parsed
        (userData,
         { s with cache := fun v => if v = userId then some userData else s.cache v })
    | some DiskSlot.corrupt =>
        ({ todos := [], nextId := 1 }, s)
    | none =>
        let userData : UserData := { todos := [], nextId := 0 }
        (userData,
         { s with cache := fun v => if v = userId then some userData else s.cache v })

/-- Source `saveUserTodos(userId, todos, nextId)`: on success the slot is
rewritten and the cache entry replaced; when `fs.writeFileSync` throws
(`ok = false`) the `catch` skips the cache update and the slot keeps its
old contents. -/
def saveUserTodos (ok : Bool) (s : Sys) (userId : String)
    (todos : List Todo) (nextId : Nat) : Sys :=
  if ok then
    { cache := fun v => if v = userId then some { todos := todos, nextId := nextId }
        else s.cache v,
      disk := fun v => if v = userId then some (DiskSlot.good { todos := todos, nextId := nextId })
        else s.disk v }
  else s

/-- The handlers mutate the `userData` object returned by `loadUserTodos`
in place; when that object is the cache entry (every load path except the
corrupt-snapshot fallback) the cache entry changes with it. -/
def commitInPlace (s : Sys) (userId : String) (d : UserData) : Sys :=
  match s.cache userId with
  | some _ => { s with cache := fun v => if v = userId then some d else s.cache v }
  | none => s

/-- What every mutation handler does after computing the new todo list:
the in-place mutation of the loaded object (`commitInPlace`) followed by
the `saveUserTodos` call. -/
def mutateAndSave (ok : Bool) (s : Sys) (userId : String)
    (todos : List Todo) (nextId : Nat) : Sys :=
  saveUserTodos ok (commitInPlace s userId { todos := todos, nextId := nextId })
    userId todos nextId

/-! ## Handlers -/

/-- The PUT body: each field is independently optional. -/
structure TodoPatch where
  title : Option String
  completed : Option Bool
  priority : Option Priority
deriving DecidableEq, Repr

/-- The three conditional assignments of the PUT handler applied to the
located record (title trimmed again when present). -/
def applyPatch (t : Todo) (p : TodoPatch) : Todo :=
  let t1 := match p.title with
    | some x => { t with title := jsTrim x }
    | none => t
  let t2 := match p.completed with
    | some b => { t1 with completed := b }
    | none => t1
  match p.priority with
  | some pr => { t2 with priority := pr }
  | none => t2

/-- Source `findIndex` plus in-place field assignment: rewrite the first record whose
`id` matches, returning the rewritten record and the rewritten list;
`none` when no record matches. -/
def updateFirst (p : TodoPatch) (id : Nat) : List Todo → Option (Todo × List Todo)
  | [] => none
  | t :: ts =>
    if t.id = id then
      let t2 := applyPatch t p
      some (t2, t2 :: ts)
    else
      match updateFirst p id ts with
      | none => none
      | some (u, ts2) => some (u, t :: ts2)

/-- Source `findIndex` plus `splice(todoIndex, 1)`: remove the first record whose
`id` matches, returning it and the remaining list. -/
def removeFirst (id : Nat) : List Todo → Option (Todo × List Todo)
  | [] => none
  | t :: ts =>
    if t.id = id then some (t, ts)
    else
      match removeFirst id ts with
      | none => none
      | some (u, ts2) => some (u, t :: ts2)

/-- Handler `POST /todos` after validation: allocate `id = nextId++`, trim the
title, stamp `createdAt`, append, persist, return the new record. -/
def createTodo (ok : Bool) (s : Sys) (userId : String)
    (title : String) (completed : Bool) (priority : Priority) (now : String) :
    Todo × Sys :=
  let loaded := loadUserTodos s userId
  let userData := loaded.1
  let newTodo : Todo :=
    { id := userData.nextId, title := jsTrim title, completed := completed,
      priority := priority, createdAt := now }
  let todos2 := userData.todos ++ [newTodo]
  let nextId2 := userData.nextId + 1
  (newTodo, mutateAndSave ok loaded.2 userId todos2 nextId2)

/-- Result of the PUT and DELETE handlers: a 404, or the affected record. -/
inductive MutationResult where
  | notFound
  | affected (t : Todo)
deriving DecidableEq, Repr

/-- Handler `PUT /todos/:id` after validation: locate by id; on a miss respond
404 with no write; on a hit rewrite the patched fields in place, persist,
return the updated record. -/
def updateTodo (ok : Bool) (s : Sys) (userId : String) (id : Nat)
    (p : TodoPatch) : MutationResult × Sys :=
  let loaded := loadUserTodos s userId
  let userData := loaded.1
  match updateFirst p id userData.todos with
  | none => (MutationResult.notFound, loaded.2)
  | some r =>
    (MutationResult.affected r.1, mutateAndSave ok loaded.2 userId r.2 userData.nextId)

/-- Handler `DELETE /todos/:id`: locate by id; on a miss respond 404 with no
write; on a hit splice the record out, persist, return the removed record. -/
def deleteTodo (ok : Bool) (s : Sys) (userId : String) (id : Nat) :
    MutationResult × Sys :=
  let loaded := loadUserTodos s userId
  let userData := loaded.1
  match removeFirst id userData.todos with
  | none => (MutationResult.notFound, loaded.2)
  | some r =>
    (MutationResult.affected r.1, mutateAndSave ok loaded.2 userId r.2 userData.nextId)

/-- Handler `GET /todos/:id`: `todos.find(t => t.id === id)`. -/
def getTodo (s : Sys) (userId : String) (id : Nat) : Option Todo × Sys :=
  let loaded := loadUserTodos s userId
  (loaded.1.todos.find? (fun t => t.id = id), loaded.2)

/-- Handler `GET /todos`: completion filter (`"completed"` / `"pending"`, anything
else means no filter), then the search filter (skipped when `search` is
absent or the empty string, which is falsy in JS). -/
def listTodos (s : Sys) (userId : String)
    (filter : Option String) (search : Option String) : List Todo × Sys :=
  let loaded := loadUserTodos s userId
  let l1 := loaded.1.todos
  let l2 :=
    if filter = some "completed" then l1.filter (fun t => t.completed)
    else if filter = some "pending" then l1.filter (fun t => !t.completed)
    else l1
  let l3 :=
    match search with
    | some q =>
        if q = "" then l2
        else
          let searchLower := jsTrim (jsToLower q)
          l2.filter (fun t => strContains (jsToLower t.title) searchLower)
    | none => l2
  (l3, loaded.2)

/-- The `priorityCounts` object of the stats response. -/
structure PriorityCounts where
  low : Nat
  medium : Nat
  high : Nat
deriving DecidableEq, Repr

/-- The stats response body. -/
structure StatsResult where
  total : Nat
  completed : Nat
  pending : Nat
  completionRate : Nat
  priorityCounts : PriorityCounts
deriving DecidableEq, Repr

/-- Source `Math.round((completed / total) * 100)` in exact rational arithmetic:
`Math.round x = ⌊x + 1/2⌋` for nonnegative `x`, and
`⌊100 c / t + 1/2⌋ = (200 c + t) / (2 t)` in natural division. -/
def completionRateOf (completed total : Nat) : Nat :=
  if 0 < total then (200 * completed + total) / (2 * total) else 0

/-- Handler `GET /todos/stats`. -/
def statsTodos (s : Sys) (userId : String) : StatsResult × Sys :=
  let loaded := loadUserTodos s userId
  let todos := loaded.1.todos
  let completed := (todos.filter (fun t => t.completed)).length
  let pending := (todos.filter (fun t => !t.completed)).length
  let total := todos.length
  ({ total := total, completed := completed, pending := pending,
     completionRate := completionRateOf completed total,
     priorityCounts :=
      { low := (todos.filter (fun t => t.priority = Priority.low)).length,
        medium := (todos.filter (fun t => t.priority = Priority.medium)).length,
        high := (todos.filter (fun t => t.priority = Priority.high)).length } },
   loaded.2)

/-! ## Request sequences -/

/-- One inbound API request (already validated), with the outcome of its
durable write chosen by the environment for the mutations. -/
inductive Op where
  | createOp (ok : Bool) (userId : String) (title : String) (completed : Bool)
      (priority : Priority) (now : String)
  | updateOp (ok : Bool) (userId : String) (id : Nat) (p : TodoPatch)
  | deleteOp (ok : Bool) (userId : String) (id : Nat)
  | listOp (userId : String) (filter search : Option String)
  | getOp (userId : String) (id : Nat)
  | statsOp (userId : String)

/-- State transition of one request. -/
def step (s : Sys) : Op → Sys
  | Op.createOp ok uid title c pr now => (createTodo ok s uid title c pr now).2
  | Op.updateOp ok uid id p => (updateTodo ok s uid id p).2
  | Op.deleteOp ok uid id => (deleteTodo ok s uid id).2
  | Op.listOp uid f q => (listTodos s uid f q).2
  | Op.getOp uid id => (getTodo s uid id).2
  | Op.statsOp uid => (statsTodos s uid).2

/-- State after a whole request sequence. -/
def runOps (s : Sys) : List Op → Sys
  | [] => s
  | op :: ops => runOps (step s op) ops

/-- The ids returned to the caller by the create requests for user `u`,
in call order. -/
def createdIds (s : Sys) (u : String) : List Op → List Nat
  | [] => []
  | op :: ops =>
    match op with
    | Op.createOp ok uid title c pr now =>
      if uid = u then
        (createTodo ok s uid title c pr now).1.id :: createdIds (step s op) u ops
      else createdIds (step s op) u ops
    | _ => createdIds (step s op) u ops

/-! ## The resolved per-user view and the data-model invariants -/

/-- The user state an operation for `u` works on: what `loadUserTodos`
returns (without the caching side effect). -/
def userView (s : Sys) (u : String) : UserData := (loadUserTodos s u).1

/-- The function `userView` as a function of the user cache entry and durable slot. -/
def resolveView (c : Option UserData) (d : Option DiskSlot) : UserData :=
  match c with
  | some data => data
  | none =>
    match d with
    | some (DiskSlot.good parsed) => normalizeSnapshot parsed
    | some DiskSlot.corrupt => { todos := [], nextId := 1 }
    | none => { todos := [], nextId := 0 }

/-- Invariant `id < nextId` for every record: the allocator invariant on one user
state. -/
def InvD (d : UserData) : Prop := ∀ t ∈ d.todos, t.id < d.nextId

/-- The allocator invariant on every cache entry and every parseable
durable slot. -/
def SysInv (s : Sys) : Prop :=
  (∀ u d, s.cache u = some d → InvD d) ∧
  (∀ u d, s.disk u = some (DiskSlot.good d) → InvD d)

/-- No durable slot holds unparseable bytes (true of every state a fresh
deployment can reach, since the process itself only writes parseable
snapshots). -/
def NoCorrupt (s : Sys) : Prop := ∀ u, s.disk u ≠ some DiskSlot.corrupt

/-- A simulated process restart: the in-memory cache is gone, the durable
slots survive. -/
def dropCache (s : Sys) : Sys :=
  { cache := fun _ => none, disk := s.disk }

/-! ## File-system trace of the durable write -/

/-- A file-system operation, for reasoning about the write pattern of
`saveUserTodos`. -/
inductive FsOp where
  | writeFile (path : String) (snapshot : UserData)
  | rename (src : String) (dst : String)
deriving DecidableEq, Repr

/-- The file-system operations `saveUserTodos` performs, in order: a single
`fs.writeFileSync(userFile, data)` straight to the final slot path
(`src/server.js` lines 67-78; there is no temporary file and no rename). -/
def saveUserTodosTrace (userId : String) (todos : List Todo) (nextId : Nat) :
    List FsOp :=
  [FsOp.writeFile (getUserDataFile userId) { todos := todos, nextId := nextId }]

/-- Stated from the specification words: the snapshot write goes to a
temporary location and is then renamed onto the user final slot path. -/
def writesViaTempThenRename (userId : String) (tr : List FsOp) : Prop :=
  ∃ i j tmp d, i < j ∧ tmp ≠ getUserDataFile userId ∧
    tr.get? i = some (FsOp.writeFile tmp d) ∧
    tr.get? j = some (FsOp.rename tmp (getUserDataFile userId))

/-! ## Specification-side predicates for the list endpoint -/

/-- Stated from the specification words: `filter ∈ {completed, pending}`
restricts by the `completed` flag; absent or other values mean no filter. -/
def matchesFilter (filter : Option String) (t : Todo) : Bool :=
  if filter = some "completed" then t.completed
  else if filter = some "pending" then !t.completed
  else true

/-- Stated from the specification words: a non-empty `search` restricts
to todos whose case-folded title contains the case-folded, trimmed search
string. -/
def matchesSearch (search : Option String) (t : Todo) : Bool :=
  match search with
  | none => true
  | some q =>
    if q = "" then true
    else strContains (jsToLower t.title) (jsTrim (jsToLower q))

/-! ## Concrete fixtures used by the witnesses and counterexamples -/

/-- A demo request sequence: three creates for alice interleaved with one
create for bob and a delete for alice. -/
def c1DemoOps : List Op :=
  [Op.createOp true "alice-0001" "buy milk" false Priority.medium "2024-01-01",
   Op.createOp true "alice-0001" "buy eggs" false Priority.high "2024-01-02",
   Op.createOp true "bob-00001" "other task" false Priority.low "2024-01-03",
   Op.deleteOp true "alice-0001" 0,
   Op.createOp true "alice-0001" "pay rent" true Priority.medium "2024-01-04"]

/-- A durable store holding one unparseable slot. -/
def c4CorruptSys : Sys :=
  { cache := fun _ => none,
    disk := fun v => if v = "dave-0004" then some DiskSlot.corrupt else none }

/-- A durable store holding one unparseable slot (for the persist-failure
analysis). -/
def c8CorruptSys : Sys :=
  { cache := fun _ => none,
    disk := fun v => if v = "grace-0007" then some DiskSlot.corrupt else none }

/-- Five todos: 2 completed / 3 pending, priorities high:1 medium:3 low:1. -/
def c9Todos : List Todo :=
  [{ id := 1, title := "a", completed := true, priority := Priority.high, createdAt := "t1" },
   { id := 2, title := "b", completed := true, priority := Priority.medium, createdAt := "t2" },
   { id := 3, title := "c", completed := false, priority := Priority.medium, createdAt := "t3" },
   { id := 4, title := "d", completed := false, priority := Priority.medium, createdAt := "t4" },
   { id := 5, title := "e", completed := false, priority := Priority.low, createdAt := "t5" }]

/-- A process whose cache holds the five stats-demo todos. -/
def c9DemoSys : Sys :=
  { cache := fun v => if v = "henry-0008" then some { todos := c9Todos, nextId := 6 } else none,
    disk := fun _ => none }

/-- A record the update demo rewrites. -/
def c6Old : Todo :=
  { id := 1, title := "old", completed := false, priority := Priority.low,
    createdAt := "t0" }

/-- A record the update demo leaves untouched. -/
def c6Keep : Todo :=
  { id := 2, title := "keep", completed := true, priority := Priority.high,
    createdAt := "t1" }

/-- A process whose cache holds the two update-demo todos. -/
def c6DemoSys : Sys :=
  { cache := fun v => if v = "judy-0010" then
      some { todos := [c6Old, c6Keep], nextId := 3 } else none,
    disk := fun _ => none }

/-- A patch with an untrimmed title, a completed flag, and no priority. -/
def c6Patch : TodoPatch :=
  { title := some "  hi  ", completed := some true, priority := none }

/-- The seed record of the persist-failure demo. -/
def c8Seed : Todo :=
  { id := 1, title := "seed", completed := false, priority := Priority.medium,
    createdAt := "t0" }

/-- A process whose cache holds one user with one todo (for the
persist-failure demo). -/
def c8DemoSys : Sys :=
  { cache := fun v => if v = "kate-0011" then
      some { todos := [c8Seed], nextId := 2 } else none,
    disk := fun _ => none }

/-- The pending record of the filter/search demo. -/
def c10Milk : Todo :=
  { id := 1, title := "Buy milk", completed := false, priority := Priority.medium,
    createdAt := "t1" }

/-- The completed record of the filter/search demo. -/
def c10Eggs : Todo :=
  { id := 2, title := "Buy eggs", completed := true, priority := Priority.medium,
    createdAt := "t2" }

/-- A process whose cache holds the two filter/search demo todos. -/
def c10DemoSys : Sys :=
  { cache := fun v => if v = "iris-0009" then some { todos := [c10Milk, c10Eggs], nextId := 3 } else none,
    disk := fun _ => none }

theorem userView_eq (s : Sys) (u : String) :
    userView s u = resolveView (s.cache u) (s.disk u) := by
  unfold userView loadUserTodos resolveView
  cases s.cache u with
  | some d => rfl
  | none =>
    cases s.disk u with
    | none => rfl
    | some slot => cases slot <;> rfl

theorem userView_congr {s1 s2 : Sys} (u : String)
    (hc : s1.cache u = s2.cache u) (hd : s1.disk u = s2.disk u) :
    userView s1 u = userView s2 u := by
  rw [userView_eq, userView_eq, hc, hd]

theorem invD_normalize {d : UserData} (h : InvD d) :
    InvD (normalizeSnapshot d) := by
  intro t ht
  have h1 := h t ht
  simp only [normalizeSnapshot] at *
  split <;> omega

theorem invD_userView {s : Sys} (h : SysInv s) (u : String) :
    InvD (userView s u) := by
  rw [userView_eq]
  unfold resolveView
  cases hc : s.cache u with
  | some d => exact h.1 _ _ hc
  | none =>
    cases hd : s.disk u with
    | none => intro t ht; simp at ht
    | some slot =>
      cases slot with
      | good parsed => exact invD_normalize (h.2 _ _ hd)
      | corrupt => intro t ht; simp at ht

/-! ### Effect of `loadUserTodos` on the state -/

theorem load_disk (s : Sys) (u : String) : (loadUserTodos s u).2.disk = s.disk := by
  unfold loadUserTodos
  cases s.cache u with
  | some d => rfl
  | none =>
    cases s.disk u with
    | none => rfl
    | some slot => cases slot <;> rfl

theorem load_cache_other {s : Sys} {u v : String} (h : v ≠ u) :
    (loadUserTodos s u).2.cache v = s.cache v := by
  unfold loadUserTodos
  cases s.cache u with
  | some d => rfl
  | none =>
    cases s.disk u with
    | none => simp [h]
    | some slot => cases slot <;> simp [h]

theorem load_cache_self {s : Sys} {u : String}
    (h : s.disk u ≠ some DiskSlot.corrupt) :
    (loadUserTodos s u).2.cache u = some (loadUserTodos s u).1 := by
  unfold loadUserTodos
  cases hc : s.cache u with
  | some d => exact hc
  | none =>
    cases hd : s.disk u with
    | none => simp
    | some slot =>
      cases slot with
      | good parsed => simp
      | corrupt => exact absurd hd h

theorem load_userView (s : Sys) (u : String) :
    userView (loadUserTodos s u).2 u = userView s u := by
  rw [userView_eq, userView_eq, load_disk]
  unfold loadUserTodos
  cases hc : s.cache u with
  | some d => rw [hc]
  | none =>
    cases hd : s.disk u with
    | none => simp [resolveView, hd]
    | some slot =>
      cases slot with
      | good parsed => simp [resolveView, hd]
      | corrupt => rw [hc]

theorem load_userView_other {s : Sys} {u v : String} (h : v ≠ u) :
    userView (loadUserTodos s u).2 v = userView s v :=
  userView_congr v (load_cache_other h) (by rw [load_disk])

theorem load_sysInv {s : Sys} (h : SysInv s) (u : String) :
    SysInv (loadUserTodos s u).2 := by
  constructor
  · intro v d hv
    rcases eq_or_ne v u with rfl | hne
    · cases hc : s.cache v with
      | some d0 =>
        simp only [loadUserTodos, hc] at hv
        cases hv
        exact h.1 _ _ hc
      | none =>
        cases hd : s.disk v with
        | none =>
          simp only [loadUserTodos, hc, hd, if_pos rfl] at hv
          cases hv
          intro t ht; simp at ht
        | some slot =>
          cases slot with
          | good parsed =>
            simp only [loadUserTodos, hc, hd, if_pos rfl] at hv
            cases hv
            exact invD_normalize (h.2 _ _ hd)
          | corrupt =>
            simp only [loadUserTodos, hc, hd] at hv
            exact Option.noConfusion hv
    · rw [load_cache_other hne] at hv
      exact h.1 _ _ hv
  · intro v d hv
    rw [load_disk] at hv
    exact h.2 _ _ hv

theorem load_noCorrupt {s : Sys} (h : NoCorrupt s) (u : String) :
    NoCorrupt (loadUserTodos s u).2 := by
  intro v
  rw [load_disk]
  exact h v

/-! ### Effect of `commitInPlace` and `saveUserTodos` -/

theorem commit_disk (s : Sys) (u : String) (d : UserData) :
    (commitInPlace s u d).disk = s.disk := by
  unfold commitInPlace
  cases s.cache u <;> rfl

theorem commit_cache_self {s : Sys} {u : String} (d : UserData)
    (h : (s.cache u).isSome) :
    (commitInPlace s u d).cache u = some d := by
  unfold commitInPlace
  cases hc : s.cache u with
  | some d0 => simp
  | none => rw [hc] at h; simp at h

theorem commit_cache_other {s : Sys} {u v : String} (d : UserData)
    (h : v ≠ u) : (commitInPlace s u d).cache v = s.cache v := by
  unfold commitInPlace
  cases hc : s.cache u with
  | some d0 => simp [h]
  | none => rfl

theorem save_cache_other {s : Sys} {u v : String} (ok : Bool)
    (todos : List Todo) (n : Nat) (h : v ≠ u) :
    (saveUserTodos ok s u todos n).cache v = s.cache v := by
  unfold saveUserTodos
  cases ok <;> simp [h]

theorem save_disk_other {s : Sys} {u v : String} (ok : Bool)
    (todos : List Todo) (n : Nat) (h : v ≠ u) :
    (saveUserTodos ok s u todos n).disk v = s.disk v := by
  unfold saveUserTodos
  cases ok <;> simp [h]

theorem mutateAndSave_cache_self {s : Sys} {u : String} (ok : Bool)
    (todos : List Todo) (n : Nat) (h : (s.cache u).isSome) :
    (mutateAndSave ok s u todos n).cache u = some { todos := todos, nextId := n } := by
  cases ok with
  | true => simp [mutateAndSave, saveUserTodos]
  | false =>
    simp only [mutateAndSave, saveUserTodos, Bool.false_eq_true, if_false]
    exact commit_cache_self _ h

theorem mutateAndSave_false_uncached {s : Sys} {u : String}
    (todos : List Todo) (n : Nat) (h : s.cache u = none) :
    mutateAndSave false s u todos n = s := by
  simp only [mutateAndSave, saveUserTodos, Bool.false_eq_true, if_false]
  unfold commitInPlace
  rw [h]

theorem mutateAndSave_cache_other {s : Sys} {u v : String} (ok : Bool)
    (todos : List Todo) (n : Nat) (h : v ≠ u) :
    (mutateAndSave ok s u todos n).cache v = s.cache v := by
  unfold mutateAndSave
  rw [save_cache_other _ _ _ h, commit_cache_other _ h]

theorem mutateAndSave_disk_other {s : Sys} {u v : String} (ok : Bool)
    (todos : List Todo) (n : Nat) (h : v ≠ u) :
    (mutateAndSave ok s u todos n).disk v = s.disk v := by
  unfold mutateAndSave
  rw [save_disk_other _ _ _ h, commit_disk]

theorem mutateAndSave_disk_self {s : Sys} {u : String} (ok : Bool)
    (todos : List Todo) (n : Nat) :
    (mutateAndSave ok s u todos n).disk u =
      (if ok then some (DiskSlot.good { todos := todos, nextId := n })
       else s.disk u) := by
  cases ok <;> simp [mutateAndSave, saveUserTodos, commit_disk]

/-! ### Effect of the create handler -/

theorem createTodo_fst (ok : Bool) (s : Sys) (u : String) (title : String)
    (c : Bool) (pr : Priority) (now : String) :
    (createTodo ok s u title c pr now).1 =
      { id := (userView s u).nextId, title := jsTrim title, completed := c,
        priority := pr, createdAt := now } := rfl

theorem createTodo_cache_self {s : Sys} {u : String} (ok : Bool)
    (title : String) (c : Bool) (pr : Priority) (now : String)
    (h : s.disk u ≠ some DiskSlot.corrupt) :
    (createTodo ok s u title c pr now).2.cache u =
      some { todos := (userView s u).todos ++ [(createTodo ok s u title c pr now).1],
             nextId := (userView s u).nextId + 1 } := by
  have hself : ((loadUserTodos s u).2.cache u).isSome := by
    rw [load_cache_self h]; rfl
  simp only [createTodo]
  rw [mutateAndSave_cache_self _ _ _ hself]
  rfl

theorem createTodo_disk_self {s : Sys} {u : String} (ok : Bool)
    (title : String) (c : Bool) (pr : Priority) (now : String) :
    (createTodo ok s u title c pr now).2.disk u =
      (if ok then
        some (DiskSlot.good
          { todos := (userView s u).todos ++ [(createTodo ok s u title c pr now).1],
            nextId := (userView s u).nextId + 1 })
       else s.disk u) := by
  simp only [createTodo]
  rw [mutateAndSave_disk_self, load_disk]
  rfl

theorem createTodo_cache_other {s : Sys} {u v : String} (ok : Bool)
    (title : String) (c : Bool) (pr : Priority) (now : String) (h : v ≠ u) :
    (createTodo ok s u title c pr now).2.cache v = s.cache v := by
  simp only [createTodo]
  rw [mutateAndSave_cache_other _ _ _ h, load_cache_other h]

theorem createTodo_disk_other {s : Sys} {u v : String} (ok : Bool)
    (title : String) (c : Bool) (pr : Priority) (now : String) (h : v ≠ u) :
    (createTodo ok s u title c pr now).2.disk v = s.disk v := by
  simp only [createTodo]
  rw [mutateAndSave_disk_other _ _ _ h, load_disk]

theorem createTodo_userView {s : Sys} {u : String} (ok : Bool)
    (title : String) (c : Bool) (pr : Priority) (now : String)
    (h : s.disk u ≠ some DiskSlot.corrupt) :
    userView (createTodo ok s u title c pr now).2 u =
      { todos := (userView s u).todos ++ [(createTodo ok s u title c pr now).1],
        nextId := (userView s u).nextId + 1 } := by
  rw [userView_eq, createTodo_cache_self ok title c pr now h]
  rfl

theorem createTodo_userView_other {s : Sys} {u v : String} (ok : Bool)
    (title : String) (c : Bool) (pr : Priority) (now : String) (h : v ≠ u) :
    userView (createTodo ok s u title c pr now).2 v = userView s v := by
  rw [userView_eq, userView_eq, createTodo_cache_other ok title c pr now h,
    createTodo_disk_other ok title c pr now h]

theorem createTodo_invD {s : Sys} {u : String} (hinv : SysInv s) (ok : Bool)
    (title : String) (c : Bool) (pr : Priority) (now : String) :
    InvD { todos := (userView s u).todos ++ [(createTodo ok s u title c pr now).1],
           nextId := (userView s u).nextId + 1 } := by
  intro t ht
  dsimp only at ht ⊢
  rcases List.mem_append.mp ht with hmem | hmem
  · have := invD_userView hinv u t hmem
    omega
  · rcases List.mem_singleton.mp hmem
    rw [createTodo_fst]
    dsimp only
    omega

theorem createTodo_sysInv {s : Sys} {u : String} (hinv : SysInv s)
    (hnc : s.disk u ≠ some DiskSlot.corrupt) (ok : Bool) (title : String)
    (c : Bool) (pr : Priority) (now : String) :
    SysInv (createTodo ok s u title c pr now).2 := by
  constructor
  · intro v d hv
    rcases eq_or_ne v u with rfl | hne
    · rw [createTodo_cache_self ok title c pr now hnc] at hv
      cases hv
      exact createTodo_invD hinv ok title c pr now
    · rw [createTodo_cache_other ok title c pr now hne] at hv
      exact hinv.1 _ _ hv
  · intro v d hv
    rcases eq_or_ne v u with rfl | hne
    · rw [createTodo_disk_self ok title c pr now] at hv
      cases ok with
      | true =>
        simp only [if_true] at hv
        cases hv
        exact createTodo_invD hinv true title c pr now
      | false =>
        simp only [Bool.false_eq_true, if_false] at hv
        exact hinv.2 _ _ hv
    · rw [createTodo_disk_other ok title c pr now hne] at hv
      exact hinv.2 _ _ hv

theorem createTodo_noCorrupt {s : Sys} {u : String} (hnc : NoCorrupt s)
    (ok : Bool) (title : String) (c : Bool) (pr : Priority) (now : String) :
    NoCorrupt (createTodo ok s u title c pr now).2 := by
  intro v
  rcases eq_or_ne v u with rfl | hne
  · rw [createTodo_disk_self ok title c pr now]
    cases ok with
    | true => simp
    | false => simpa using hnc v
  · rw [createTodo_disk_other ok title c pr now hne]
    exact hnc v

/-! ### Effect of `mutateAndSave` on the invariants -/

theorem mutateAndSave_true_cache_self (s : Sys) (u : String)
    (todos : List Todo) (n : Nat) :
    (mutateAndSave true s u todos n).cache u = some { todos := todos, nextId := n } := by
  simp [mutateAndSave, saveUserTodos]

theorem mutateAndSave_cache_cases (ok : Bool) (s : Sys) (u : String)
    (todos : List Todo) (n : Nat) :
    (mutateAndSave ok s u todos n).cache u = some { todos := todos, nextId := n } ∨
    (mutateAndSave ok s u todos n).cache u = s.cache u := by
  cases ok with
  | true => exact Or.inl (mutateAndSave_true_cache_self s u todos n)
  | false =>
    cases hc : s.cache u with
    | some d =>
      exact Or.inl (mutateAndSave_cache_self false todos n (by rw [hc]; rfl))
    | none =>
      right
      rw [mutateAndSave_false_uncached todos n hc]
      exact hc

theorem mutateAndSave_sysInv {s : Sys} {u : String} (ok : Bool)
    (todos : List Todo) (n : Nat) (h1 : SysInv s)
    (hd : InvD { todos := todos, nextId := n }) :
    SysInv (mutateAndSave ok s u todos n) := by
  constructor
  · intro v d hv
    rcases eq_or_ne v u with rfl | hne
    · rcases mutateAndSave_cache_cases ok s v todos n with he | he
      · rw [he] at hv
        cases hv
        exact hd
      · rw [he] at hv
        exact h1.1 _ _ hv
    · rw [mutateAndSave_cache_other _ _ _ hne] at hv
      exact h1.1 _ _ hv
  · intro v d hv
    rcases eq_or_ne v u with rfl | hne
    · rw [mutateAndSave_disk_self] at hv
      cases ok with
      | true =>
        simp only [if_true] at hv
        cases hv
        exact hd
      | false =>
        simp only [Bool.false_eq_true, if_false] at hv
        exact h1.2 _ _ hv
    · rw [mutateAndSave_disk_other _ _ _ hne] at hv
      exact h1.2 _ _ hv

theorem mutateAndSave_noCorrupt {s : Sys} {u : String} (ok : Bool)
    (todos : List Todo) (n : Nat) (h : NoCorrupt s) :
    NoCorrupt (mutateAndSave ok s u todos n) := by
  intro v
  rcases eq_or_ne v u with rfl | hne
  · rw [mutateAndSave_disk_self]
    cases ok with
    | true => simp
    | false => simpa using h v
  · rw [mutateAndSave_disk_other _ _ _ hne]
    exact h v

/-! ### List surgery lemmas for the update and delete handlers -/

theorem applyPatch_id (t : Todo) (p : TodoPatch) : (applyPatch t p).id = t.id := by
  unfold applyPatch
  cases p.title <;> cases p.completed <;> cases p.priority <;> rfl

theorem updateFirst_bound (p : TodoPatch) (id n : Nat) :
    ∀ (ts : List Todo) (r : Todo × List Todo),
      (∀ x ∈ ts, x.id < n) → updateFirst p id ts = some r →
      ∀ x ∈ r.2, x.id < n := by
  intro ts
  induction ts with
  | nil => intro r _ he; cases he
  | cons t ts ih =>
    intro r hb he
    obtain ⟨t2, ts2⟩ := r
    simp only [updateFirst] at he
    by_cases h : t.id = id
    · rw [if_pos h] at he
      rw [Option.some.injEq, Prod.mk.injEq] at he
      obtain ⟨h1, h2⟩ := he
      subst h2
      intro x hx
      rcases List.mem_cons.mp hx with rfl | hx
      · rw [applyPatch_id]
        exact hb t (List.mem_cons_self _ _)
      · exact hb x (List.mem_cons_of_mem _ hx)
    · rw [if_neg h] at he
      cases hm : updateFirst p id ts with
      | none => rw [hm] at he; cases he
      | some r2 =>
        rw [hm] at he
        rw [Option.some.injEq, Prod.mk.injEq] at he
        obtain ⟨h1, h2⟩ := he
        subst h2
        intro x hx
        rcases List.mem_cons.mp hx with rfl | hx
        · exact hb x (List.mem_cons_self _ _)
        · exact ih r2 (fun y hy => hb y (List.mem_cons_of_mem _ hy)) hm x hx

theorem removeFirst_bound (id n : Nat) :
    ∀ (ts : List Todo) (r : Todo × List Todo),
      (∀ x ∈ ts, x.id < n) → removeFirst id ts = some r →
      ∀ x ∈ r.2, x.id < n := by
  intro ts
  induction ts with
  | nil => intro r _ he; cases he
  | cons t ts ih =>
    intro r hb he
    obtain ⟨t2, ts2⟩ := r
    simp only [removeFirst] at he
    by_cases h : t.id = id
    · rw [if_pos h] at he
      rw [Option.some.injEq, Prod.mk.injEq] at he
      obtain ⟨h1, h2⟩ := he
      subst h2
      intro x hx
      exact hb x (List.mem_cons_of_mem _ hx)
    · rw [if_neg h] at he
      cases hm : removeFirst id ts with
      | none => rw [hm] at he; cases he
      | some r2 =>
        rw [hm] at he
        rw [Option.some.injEq, Prod.mk.injEq] at he
        obtain ⟨h1, h2⟩ := he
        subst h2
        intro x hx
        rcases List.mem_cons.mp hx with rfl | hx
        · exact hb x (List.mem_cons_self _ _)
        · exact ih r2 (fun y hy => hb y (List.mem_cons_of_mem _ hy)) hm x hx

theorem updateFirst_spec (p : TodoPatch) (id : Nat) :
    ∀ (pre : List Todo) (t : Todo) (post : List Todo),
      (∀ x ∈ pre, x.id ≠ id) → t.id = id →
      updateFirst p id (pre ++ t :: post) =
        some (applyPatch t p, pre ++ applyPatch t p :: post) := by
  intro pre
  induction pre with
  | nil =>
    intro t post _ ht
    simp [updateFirst, ht]
  | cons a as ih =>
    intro t post hpre ht
    have ha : a.id ≠ id := hpre a (List.mem_cons_self _ _)
    simp only [List.cons_append, updateFirst, if_neg ha, List.append_eq]
    rw [ih t post (fun x hx => hpre x (List.mem_cons_of_mem _ hx)) ht]

theorem removeFirst_spec (id : Nat) :
    ∀ (pre : List Todo) (t : Todo) (post : List Todo),
      (∀ x ∈ pre, x.id ≠ id) → t.id = id →
      removeFirst id (pre ++ t :: post) = some (t, pre ++ post) := by
  intro pre
  induction pre with
  | nil =>
    intro t post _ ht
    simp [removeFirst, ht]
  | cons a as ih =>
    intro t post hpre ht
    have ha : a.id ≠ id := hpre a (List.mem_cons_self _ _)
    simp only [List.cons_append, removeFirst, if_neg ha, List.append_eq]
    rw [ih t post (fun x hx => hpre x (List.mem_cons_of_mem _ hx)) ht]

theorem updateFirst_eq_none (p : TodoPatch) (id : Nat) :
    ∀ (ts : List Todo), updateFirst p id ts = none ↔ ∀ t ∈ ts, t.id ≠ id := by
  intro ts
  induction ts with
  | nil => simp [updateFirst]
  | cons t ts ih =>
    simp only [updateFirst]
    by_cases h : t.id = id
    · simp [h]
    · rw [if_neg h]
      cases hm : updateFirst p id ts with
      | none =>
        simp only [List.mem_cons]
        constructor
        · intro _ x hx
          rcases hx with rfl | hx
          · exact h
          · exact (ih.mp hm) x hx
        · intro _; trivial
      | some r =>
        obtain ⟨a, b⟩ := r
        simp only [List.mem_cons]
        constructor
        · intro he; cases he
        · intro hall
          have : updateFirst p id ts = none := ih.mpr (fun x hx => hall x (Or.inr hx))
          rw [this] at hm
          cases hm


theorem removeFirst_eq_none (id : Nat) :
    ∀ (ts : List Todo), removeFirst id ts = none ↔ ∀ t ∈ ts, t.id ≠ id := by
  intro ts
  induction ts with
  | nil => simp [removeFirst]
  | cons t ts ih =>
    simp only [removeFirst]
    by_cases h : t.id = id
    · simp [h]
    · rw [if_neg h]
      cases hm : removeFirst id ts with
      | none =>
        simp only [List.mem_cons]
        constructor
        · intro _ x hx
          rcases hx with rfl | hx
          · exact h
          · exact (ih.mp hm) x hx
        · intro _; trivial
      | some r =>
        obtain ⟨a, b⟩ := r
        simp only [List.mem_cons]
        constructor
        · intro he; cases he
        · intro hall
          have : removeFirst id ts = none := ih.mpr (fun x hx => hall x (Or.inr hx))
          rw [this] at hm
          cases hm

/-! ### Effect of the update and delete handlers -/

theorem updateTodo_cache_other {s : Sys} {u v : String} (ok : Bool)
    (id : Nat) (p : TodoPatch) (h : v ≠ u) :
    (updateTodo ok s u id p).2.cache v = s.cache v := by
  simp only [updateTodo]
  cases hm : updateFirst p id (loadUserTodos s u).1.todos with
  | none => exact load_cache_other h
  | some r =>
    dsimp only
    rw [mutateAndSave_cache_other _ _ _ h, load_cache_other h]

theorem updateTodo_disk_other {s : Sys} {u v : String} (ok : Bool)
    (id : Nat) (p : TodoPatch) (h : v ≠ u) :
    (updateTodo ok s u id p).2.disk v = s.disk v := by
  simp only [updateTodo]
  cases hm : updateFirst p id (loadUserTodos s u).1.todos with
  | none => rw [load_disk]
  | some r =>
    dsimp only
    rw [mutateAndSave_disk_other _ _ _ h, load_disk]

theorem updateTodo_nextId (ok : Bool) (s : Sys) (u : String) (id : Nat)
    (p : TodoPatch) :
    (userView (updateTodo ok s u id p).2 u).nextId = (userView s u).nextId := by
  simp only [updateTodo]
  cases hm : updateFirst p id (loadUserTodos s u).1.todos with
  | none =>
    dsimp only
    rw [load_userView]
  | some r =>
    dsimp only
    cases ok with
    | true =>
      rw [userView_eq, mutateAndSave_true_cache_self]
      rfl
    | false =>
      cases hc : (loadUserTodos s u).2.cache u with
      | some d =>
        rw [userView_eq, mutateAndSave_cache_self false _ _ (by rw [hc]; rfl)]
        rfl
      | none =>
        rw [mutateAndSave_false_uncached _ _ hc, load_userView]

theorem updateTodo_sysInv {s : Sys} {u : String} (hinv : SysInv s) (ok : Bool)
    (id : Nat) (p : TodoPatch) : SysInv (updateTodo ok s u id p).2 := by
  simp only [updateTodo]
  cases hm : updateFirst p id (loadUserTodos s u).1.todos with
  | none =>
    dsimp only
    exact load_sysInv hinv u
  | some r =>
    dsimp only
    apply mutateAndSave_sysInv _ _ _ (load_sysInv hinv u)
    intro x hx
    exact updateFirst_bound p id _ _ r (invD_userView hinv u) hm x hx

theorem updateTodo_noCorrupt {s : Sys} {u : String} (hnc : NoCorrupt s)
    (ok : Bool) (id : Nat) (p : TodoPatch) :
    NoCorrupt (updateTodo ok s u id p).2 := by
  simp only [updateTodo]
  cases hm : updateFirst p id (loadUserTodos s u).1.todos with
  | none =>
    dsimp only
    exact load_noCorrupt hnc u
  | some r =>
    dsimp only
    exact mutateAndSave_noCorrupt _ _ _ (load_noCorrupt hnc u)

theorem deleteTodo_cache_other {s : Sys} {u v : String} (ok : Bool)
    (id : Nat) (h : v ≠ u) :
    (deleteTodo ok s u id).2.cache v = s.cache v := by
  simp only [deleteTodo]
  cases hm : removeFirst id (loadUserTodos s u).1.todos with
  | none => exact load_cache_other h
  | some r =>
    dsimp only
    rw [mutateAndSave_cache_other _ _ _ h, load_cache_other h]

theorem deleteTodo_disk_other {s : Sys} {u v : String} (ok : Bool)
    (id : Nat) (h : v ≠ u) :
    (deleteTodo ok s u id).2.disk v = s.disk v := by
  simp only [deleteTodo]
  cases hm : removeFirst id (loadUserTodos s u).1.todos with
  | none => rw [load_disk]
  | some r =>
    dsimp only
    rw [mutateAndSave_disk_other _ _ _ h, load_disk]

theorem deleteTodo_nextId (ok : Bool) (s : Sys) (u : String) (id : Nat) :
    (userView (deleteTodo ok s u id).2 u).nextId = (userView s u).nextId := by
  simp only [deleteTodo]
  cases hm : removeFirst id (loadUserTodos s u).1.todos with
  | none =>
    dsimp only
    rw [load_userView]
  | some r =>
    dsimp only
    cases ok with
    | true =>
      rw [userView_eq, mutateAndSave_true_cache_self]
      rfl
    | false =>
      cases hc : (loadUserTodos s u).2.cache u with
      | some d =>
        rw [userView_eq, mutateAndSave_cache_self false _ _ (by rw [hc]; rfl)]
        rfl
      | none =>
        rw [mutateAndSave_false_uncached _ _ hc, load_userView]

theorem deleteTodo_sysInv {s : Sys} {u : String} (hinv : SysInv s) (ok : Bool)
    (id : Nat) : SysInv (deleteTodo ok s u id).2 := by
  simp only [deleteTodo]
  cases hm : removeFirst id (loadUserTodos s u).1.todos with
  | none =>
    dsimp only
    exact load_sysInv hinv u
  | some r =>
    dsimp only
    apply mutateAndSave_sysInv _ _ _ (load_sysInv hinv u)
    intro x hx
    exact removeFirst_bound id _ _ r (invD_userView hinv u) hm x hx

theorem deleteTodo_noCorrupt {s : Sys} {u : String} (hnc : NoCorrupt s)
    (ok : Bool) (id : Nat) : NoCorrupt (deleteTodo ok s u id).2 := by
  simp only [deleteTodo]
  cases hm : removeFirst id (loadUserTodos s u).1.todos with
  | none =>
    dsimp only
    exact load_noCorrupt hnc u
  | some r =>
    dsimp only
    exact mutateAndSave_noCorrupt _ _ _ (load_noCorrupt hnc u)

/-! ### The read handlers touch the state only through `loadUserTodos` -/

theorem listTodos_snd (s : Sys) (u : String) (f q : Option String) :
    (listTodos s u f q).2 = (loadUserTodos s u).2 := rfl

theorem getTodo_snd (s : Sys) (u : String) (id : Nat) :
    (getTodo s u id).2 = (loadUserTodos s u).2 := rfl

theorem statsTodos_snd (s : Sys) (u : String) :
    (statsTodos s u).2 = (loadUserTodos s u).2 := rfl

theorem step_sysInv {s : Sys} (hinv : SysInv s) (hnc : NoCorrupt s) (op : Op) :
    SysInv (step s op) := by
  cases op with
  | createOp ok uid title c pr now => exact createTodo_sysInv hinv (hnc uid) ok title c pr now
  | updateOp ok uid id p => exact updateTodo_sysInv hinv ok id p
  | deleteOp ok uid id => exact deleteTodo_sysInv hinv ok id
  | listOp uid f q => exact load_sysInv hinv uid
  | getOp uid id => exact load_sysInv hinv uid
  | statsOp uid => exact load_sysInv hinv uid

theorem step_noCorrupt {s : Sys} (hnc : NoCorrupt s) (op : Op) :
    NoCorrupt (step s op) := by
  cases op with
  | createOp ok uid title c pr now => exact createTodo_noCorrupt hnc ok title c pr now
  | updateOp ok uid id p => exact updateTodo_noCorrupt hnc ok id p
  | deleteOp ok uid id => exact deleteTodo_noCorrupt hnc ok id
  | listOp uid f q => exact load_noCorrupt hnc uid
  | getOp uid id => exact load_noCorrupt hnc uid
  | statsOp uid => exact load_noCorrupt hnc uid

theorem step_nextId_mono {s : Sys} (hnc : NoCorrupt s) (op : Op) (u : String) :
    (userView s u).nextId ≤ (userView (step s op) u).nextId := by
  cases op with
  | createOp ok uid title c pr now =>
    simp only [step]
    rcases eq_or_ne u uid with rfl | hne
    · rw [createTodo_userView ok title c pr now (hnc u)]
      dsimp only
      omega
    · rw [createTodo_userView_other ok title c pr now hne]
  | updateOp ok uid id p =>
    simp only [step]
    rcases eq_or_ne u uid with rfl | hne
    · exact le_of_eq (updateTodo_nextId ok s u id p).symm
    · exact le_of_eq (congrArg UserData.nextId
        (userView_congr u (updateTodo_cache_other ok id p hne)
          (updateTodo_disk_other ok id p hne))).symm
  | deleteOp ok uid id =>
    simp only [step]
    rcases eq_or_ne u uid with rfl | hne
    · exact le_of_eq (deleteTodo_nextId ok s u id).symm
    · exact le_of_eq (congrArg UserData.nextId
        (userView_congr u (deleteTodo_cache_other ok id hne)
          (deleteTodo_disk_other ok id hne))).symm
  | listOp uid f q =>
    simp only [step, listTodos_snd]
    rcases eq_or_ne u uid with rfl | hne
    · exact le_of_eq (congrArg UserData.nextId (load_userView s u)).symm
    · exact le_of_eq (congrArg UserData.nextId (load_userView_other hne)).symm
  | getOp uid id =>
    simp only [step, getTodo_snd]
    rcases eq_or_ne u uid with rfl | hne
    · exact le_of_eq (congrArg UserData.nextId (load_userView s u)).symm
    · exact le_of_eq (congrArg UserData.nextId (load_userView_other hne)).symm
  | statsOp uid =>
    simp only [step, statsTodos_snd]
    rcases eq_or_ne u uid with rfl | hne
    · exact le_of_eq (congrArg UserData.nextId (load_userView s u)).symm
    · exact le_of_eq (congrArg UserData.nextId (load_userView_other hne)).symm

theorem runOps_sysInv (ops : List Op) :
    ∀ (s : Sys), SysInv s → NoCorrupt s → SysInv (runOps s ops) := by
  induction ops with
  | nil => intro s hinv _; exact hinv
  | cons op ops ih =>
    intro s hinv hnc
    exact ih (step s op) (step_sysInv hinv hnc op) (step_noCorrupt hnc op)

theorem runOps_noCorrupt (ops : List Op) :
    ∀ (s : Sys), NoCorrupt s → NoCorrupt (runOps s ops) := by
  induction ops with
  | nil => intro s hnc; exact hnc
  | cons op ops ih =>
    intro s hnc
    exact ih (step s op) (step_noCorrupt hnc op)

theorem runOps_nextId_mono (u : String) (ops : List Op) :
    ∀ (s : Sys), NoCorrupt s →
      (userView s u).nextId ≤ (userView (runOps s ops) u).nextId := by
  induction ops with
  | nil => intro s _; exact le_rfl
  | cons op ops ih =>
    intro s hnc
    exact le_trans (step_nextId_mono hnc op u)
      (ih (step s op) (step_noCorrupt hnc op))

theorem createdIds_spec (u : String) (ops : List Op) :
    ∀ (s : Sys), SysInv s → NoCorrupt s →
      List.Pairwise (· < ·) (createdIds s u ops) ∧
      ∀ i ∈ createdIds s u ops,
        (userView s u).nextId ≤ i ∧ i < (userView (runOps s ops) u).nextId := by
  induction ops with
  | nil =>
    intro s _ _
    exact ⟨List.Pairwise.nil, fun i hi => absurd hi (List.not_mem_nil i)⟩
  | cons op ops ih =>
    intro s hinv hnc
    have hinv2 := step_sysInv hinv hnc op
    have hnc2 := step_noCorrupt hnc op
    obtain ⟨hpair, hbound⟩ := ih (step s op) hinv2 hnc2
    have hmono2 := runOps_nextId_mono u ops (step s op) hnc2
    have hstep := step_nextId_mono hnc op u
    have hrun : runOps s (op :: ops) = runOps (step s op) ops := rfl
    cases op with
    | createOp ok uid title c pr now =>
      by_cases he : uid = u
      · subst he
        have hview : (userView (step s (Op.createOp ok uid title c pr now)) uid).nextId
            = (userView s uid).nextId + 1 := by
          show (userView (createTodo ok s uid title c pr now).2 uid).nextId = _
          rw [createTodo_userView ok title c pr now (hnc uid)]
        have hid : (createTodo ok s uid title c pr now).1.id = (userView s uid).nextId := by
          rw [createTodo_fst]
        constructor
        · simp only [createdIds]
          rw [if_true]
          refine List.Pairwise.cons ?_ hpair
          intro b hb
          have h1 := (hbound b hb).1
          omega
        · simp only [createdIds]
          rw [if_true, hrun]
          intro i hi
          rcases List.mem_cons.mp hi with rfl | hi
          · refine ⟨le_of_eq hid.symm, ?_⟩
            omega
          · have h2 := hbound i hi
            exact ⟨by omega, h2.2⟩
      · constructor
        · simp only [createdIds]
          rw [if_neg he]
          exact hpair
        · simp only [createdIds]
          rw [if_neg he, hrun]
          intro i hi
          have h2 := hbound i hi
          exact ⟨le_trans hstep h2.1, h2.2⟩
    | updateOp ok uid id p =>
      refine ⟨hpair, ?_⟩
      simp only [createdIds]
      rw [hrun]
      intro i hi
      have h2 := hbound i hi
      exact ⟨le_trans hstep h2.1, h2.2⟩
    | deleteOp ok uid id =>
      refine ⟨hpair, ?_⟩
      simp only [createdIds]
      rw [hrun]
      intro i hi
      have h2 := hbound i hi
      exact ⟨le_trans hstep h2.1, h2.2⟩
    | listOp uid f q =>
      refine ⟨hpair, ?_⟩
      simp only [createdIds]
      rw [hrun]
      intro i hi
      have h2 := hbound i hi
      exact ⟨le_trans hstep h2.1, h2.2⟩
    | getOp uid id =>
      refine ⟨hpair, ?_⟩
      simp only [createdIds]
      rw [hrun]
      intro i hi
      have h2 := hbound i hi
      exact ⟨le_trans hstep h2.1, h2.2⟩
    | statsOp uid =>
      refine ⟨hpair, ?_⟩
      simp only [createdIds]
      rw [hrun]
      intro i hi
      have h2 := hbound i hi
      exact ⟨le_trans hstep h2.1, h2.2⟩

/-! ## Auxiliary lemmas for the claim theorems -/

theorem load_cache_keeps {s : Sys} {u : String}
    (h : s.cache u = none → s.disk u ≠ some DiskSlot.corrupt) :
    (loadUserTodos s u).2.cache u = some (loadUserTodos s u).1 := by
  cases hc : s.cache u with
  | some d => simp [loadUserTodos, hc]
  | none => exact load_cache_self (h hc)

theorem mutateAndSave_false_disk (s : Sys) (u : String)
    (todos : List Todo) (n : Nat) :
    (mutateAndSave false s u todos n).disk = s.disk := by
  simp only [mutateAndSave, saveUserTodos, Bool.false_eq_true, if_false, commit_disk]

theorem createTodo_false_disk (s : Sys) (u : String) (title : String)
    (c : Bool) (pr : Priority) (now : String) :
    (createTodo false s u title c pr now).2.disk = s.disk := by
  simp only [createTodo]
  rw [mutateAndSave_false_disk, load_disk]

theorem applyPatch_title (t : Todo) (p : TodoPatch) :
    (applyPatch t p).title = (p.title.map jsTrim).getD t.title := by
  unfold applyPatch
  cases p.title <;> cases p.completed <;> cases p.priority <;> rfl

theorem applyPatch_completed (t : Todo) (p : TodoPatch) :
    (applyPatch t p).completed = p.completed.getD t.completed := by
  unfold applyPatch
  cases p.title <;> cases p.completed <;> cases p.priority <;> rfl

theorem applyPatch_priority (t : Todo) (p : TodoPatch) :
    (applyPatch t p).priority = p.priority.getD t.priority := by
  unfold applyPatch
  cases p.title <;> cases p.completed <;> cases p.priority <;> rfl

theorem applyPatch_createdAt (t : Todo) (p : TodoPatch) :
    (applyPatch t p).createdAt = t.createdAt := by
  unfold applyPatch
  cases p.title <;> cases p.completed <;> cases p.priority <;> rfl

theorem find_skip_nonmatching {p : Todo → Bool} :
    ∀ (l1 l2 : List Todo), (∀ x ∈ l1, p x = false) →
      (l1 ++ l2).find? p = l2.find? p := by
  intro l1
  induction l1 with
  | nil => intro l2 _; rfl
  | cons a as ih =>
    intro l2 h
    rw [List.cons_append, List.find?_cons_of_neg _ (by simp [h a (List.mem_cons_self _ _)])]
    exact ih l2 (fun x hx => h x (List.mem_cons_of_mem _ hx))

theorem listTodos_fst_congr {s1 s2 : Sys} {u : String}
    (h : userView s1 u = userView s2 u) (f q : Option String) :
    (listTodos s1 u f q).1 = (listTodos s2 u f q).1 := by
  simp only [listTodos]
  rw [show (loadUserTodos s1 u).1 = userView s1 u from rfl,
    show (loadUserTodos s2 u).1 = userView s2 u from rfl, h]

theorem getTodo_fst_congr {s1 s2 : Sys} {u : String}
    (h : userView s1 u = userView s2 u) (id : Nat) :
    (getTodo s1 u id).1 = (getTodo s2 u id).1 := by
  simp only [getTodo]
  rw [show (loadUserTodos s1 u).1 = userView s1 u from rfl,
    show (loadUserTodos s2 u).1 = userView s2 u from rfl, h]

theorem statsTodos_fst_congr {s1 s2 : Sys} {u : String}
    (h : userView s1 u = userView s2 u) :
    (statsTodos s1 u).1 = (statsTodos s2 u).1 := by
  simp only [statsTodos]
  rw [show (loadUserTodos s1 u).1 = userView s1 u from rfl,
    show (loadUserTodos s2 u).1 = userView s2 u from rfl, h]

/-! ## Claim C3: state of a user with no durable snapshot -/

/-- C3, counterexample: resolving a user with no cache entry and no durable
snapshot does NOT return `{todos: [], nextId: 1}` as the claim states: the
multi-user server seeds `nextId` at `0` (`src/server.js` line 57), so the
returned state is `{todos: [], nextId: 0}`. -/
theorem c3_seed_counterexample :
    (loadUserTodos emptySys "alice-0001").1 = { todos := [], nextId := 0 } ∧
    (loadUserTodos emptySys "alice-0001").1 ≠ { todos := [], nextId := 1 } := by
  constructor
  · rfl
  · decide

/-- C3, amended: when a userId has no cache entry and no durable snapshot,
the repository creates `{todos: [], nextId: seed}` with seed equal to `0`,
stores it in the cache, and returns it (the durable store is untouched). -/
theorem c3_fresh_user_state (s : Sys) (u : String)
    (hc : s.cache u = none) (hd : s.disk u = none) :
    (loadUserTodos s u).1 = { todos := [], nextId := 0 } ∧
    (loadUserTodos s u).2.cache u = some { todos := [], nextId := 0 } ∧
    (loadUserTodos s u).2.disk = s.disk := by
  refine ⟨?_, ?_, load_disk s u⟩ <;> simp [loadUserTodos, hc, hd]

/-- C3, witness: the amended theorem applied to the empty process state. -/
theorem c3_fresh_user_state_witness :
    (emptySys.cache "carol-0003" = none ∧ emptySys.disk "carol-0003" = none) ∧
    (loadUserTodos emptySys "carol-0003").1 = { todos := [], nextId := 0 } ∧
    (loadUserTodos emptySys "carol-0003").2.cache "carol-0003" =
      some { todos := [], nextId := 0 } ∧
    (loadUserTodos emptySys "carol-0003").2.disk = emptySys.disk :=
  ⟨⟨rfl, rfl⟩, c3_fresh_user_state emptySys "carol-0003" rfl rfl⟩

/-! ## Claim C4: recovery from an unparseable durable snapshot -/

/-- C4, counterexample: after resolving a user whose durable slot is
unparseable, the fresh fallback state is NOT stored in the cache (the
`catch` branch of `loadUserTodos` returns without caching,
`src/server.js` lines 60-63), and the durable slot is still present, so it
is read again on every subsequent access — refuting "stores that state in
the cache and thereafter never re-reads the durable copy". -/
theorem c4_corrupt_not_cached_counterexample :
    (loadUserTodos c4CorruptSys "dave-0004").1 = { todos := [], nextId := 1 } ∧
    (loadUserTodos c4CorruptSys "dave-0004").2.cache "dave-0004" = none ∧
    (loadUserTodos c4CorruptSys "dave-0004").2.disk "dave-0004" =
      some DiskSlot.corrupt := by
  refine ⟨rfl, ?_, ?_⟩ <;> decide

/-- C4, amended: an unparseable snapshot is recovered by returning the
fresh empty state `{todos: [], nextId: 1}` instead of a hard failure, but
the whole process state is left unchanged: the fallback is NOT cached, so
the durable slot is re-read by every subsequent resolution for that user
until a successful mutation populates the cache. -/
theorem c4_corrupt_fallback (s : Sys) (u : String)
    (hc : s.cache u = none) (hd : s.disk u = some DiskSlot.corrupt) :
    loadUserTodos s u = ({ todos := [], nextId := 1 }, s) ∧
    loadUserTodos (loadUserTodos s u).2 u = ({ todos := [], nextId := 1 }, s) := by
  have h1 : loadUserTodos s u = ({ todos := [], nextId := 1 }, s) := by
    simp [loadUserTodos, hc, hd]
  exact ⟨h1, by rw [h1]; exact h1⟩

/-- C4, witness: the amended theorem applied to a concrete corrupt slot. -/
theorem c4_corrupt_fallback_witness :
    (c4CorruptSys.cache "dave-0004" = none ∧
      c4CorruptSys.disk "dave-0004" = some DiskSlot.corrupt) ∧
    loadUserTodos c4CorruptSys "dave-0004" =
      ({ todos := [], nextId := 1 }, c4CorruptSys) ∧
    loadUserTodos (loadUserTodos c4CorruptSys "dave-0004").2 "dave-0004" =
      ({ todos := [], nextId := 1 }, c4CorruptSys) :=
  ⟨⟨rfl, by decide⟩, c4_corrupt_fallback c4CorruptSys "dave-0004" rfl (by decide)⟩

/-! ## Claim C7: write pattern of the durable store -/

/-- C7, counterexample: the durable write of `saveUserTodos` does NOT go to
a temporary location followed by a rename — the trace is a single
`fs.writeFileSync` straight to the final slot path (`src/server.js`
line 71), refuting the claimed atomic-replace mechanism. -/
theorem c7_no_temp_rename_counterexample :
    ¬ writesViaTempThenRename "frank-0006" (saveUserTodosTrace "frank-0006" [] 1) := by
  rintro ⟨i, j, tmp, d, hij, hne, hi, hj⟩
  cases j with
  | zero => omega
  | succ j2 => simp [saveUserTodosTrace] at hj

/-- C7, amended: `write(userId, todos, nextId)` performs exactly one
file-system operation, a direct write of the full serialized snapshot to
the user final slot path, with no temporary file and no rename; on
success it replaces the prior snapshot wholesale.  No atomic-replace
primitive is involved. -/
theorem c7_direct_write_no_rename (s : Sys) (u : String)
    (todos : List Todo) (n : Nat) :
    (∀ op ∈ saveUserTodosTrace u todos n, ∀ src dst, op ≠ FsOp.rename src dst) ∧
    saveUserTodosTrace u todos n =
      [FsOp.writeFile (getUserDataFile u) { todos := todos, nextId := n }] ∧
    (saveUserTodos true s u todos n).disk u =
      some (DiskSlot.good { todos := todos, nextId := n }) := by
  refine ⟨?_, rfl, ?_⟩
  · intro op hop src dst
    rcases List.mem_singleton.mp hop with rfl
    intro hcontra
    exact FsOp.noConfusion hcontra
  · simp [saveUserTodos]

/-- C7, witness: the amended theorem at a concrete save. -/
theorem c7_direct_write_no_rename_witness :
    (∀ op ∈ saveUserTodosTrace "frank-0006" [] 1, ∀ src dst, op ≠ FsOp.rename src dst) ∧
    saveUserTodosTrace "frank-0006" [] 1 =
      [FsOp.writeFile (getUserDataFile "frank-0006") { todos := [], nextId := 1 }] ∧
    (saveUserTodos true emptySys "frank-0006" [] 1).disk "frank-0006" =
      some (DiskSlot.good { todos := [], nextId := 1 }) :=
  c7_direct_write_no_rename emptySys "frank-0006" [] 1

/-! ## Claim C9: the stats endpoint -/

/-- C9: `stats(userId)` returns `total` equal to the number of the user
todos, `completed`/`pending` equal to the counts of todos with `completed`
true resp. false, `completionRate = round(100 * completed / total)` (exact
rational rounding, `(200c + t) / (2t)` in integer arithmetic) when
`total > 0` and `0` otherwise, and `priorityCounts` tallying each of low,
medium, high; on the 2-completed / 3-pending, `{high:1, medium:3, low:1}`
fixture it returns `total=5, completed=2, pending=3, completionRate=40,
priorityCounts={high:1, medium:3, low:1}`. -/
theorem c9_stats_correct (s : Sys) (u : String) :
    (statsTodos s u).1.total = (userView s u).todos.length ∧
    (statsTodos s u).1.completed =
      (userView s u).todos.countP (fun t => t.completed) ∧
    (statsTodos s u).1.pending =
      (userView s u).todos.countP (fun t => !t.completed) ∧
    (statsTodos s u).1.completed + (statsTodos s u).1.pending =
      (statsTodos s u).1.total ∧
    (statsTodos s u).1.completionRate =
      (if 0 < (statsTodos s u).1.total then
        (200 * (statsTodos s u).1.completed + (statsTodos s u).1.total) /
          (2 * (statsTodos s u).1.total)
       else 0) ∧
    (statsTodos s u).1.priorityCounts.low =
      (userView s u).todos.countP (fun t => t.priority = Priority.low) ∧
    (statsTodos s u).1.priorityCounts.medium =
      (userView s u).todos.countP (fun t => t.priority = Priority.medium) ∧
    (statsTodos s u).1.priorityCounts.high =
      (userView s u).todos.countP (fun t => t.priority = Priority.high) ∧
    (statsTodos c9DemoSys "henry-0008").1 =
      { total := 5, completed := 2, pending := 3, completionRate := 40,
        priorityCounts := { low := 1, medium := 3, high := 1 } } := by
  refine ⟨rfl, ?_, ?_, ?_, rfl, ?_, ?_, ?_, by decide⟩
  · rw [List.countP_eq_length_filter]; rfl
  · rw [List.countP_eq_length_filter]; rfl
  · show ((userView s u).todos.filter (fun t => t.completed)).length +
      ((userView s u).todos.filter (fun t => !t.completed)).length =
      (userView s u).todos.length
    rw [← List.countP_eq_length_filter, ← List.countP_eq_length_filter]
    have h := List.length_eq_countP_add_countP (l := (userView s u).todos)
      (fun t => t.completed)
    rw [h]
    congr 1
    apply List.countP_congr
    intro x _
    cases hx : x.completed <;> simp [hx]
  · rw [List.countP_eq_length_filter]; rfl
  · rw [List.countP_eq_length_filter]; rfl
  · rw [List.countP_eq_length_filter]; rfl

/-! ## Claim C10: the list endpoint -/

theorem filterStep_eq (f : Option String) (l : List Todo) :
    (if f = some "completed" then l.filter (fun t => t.completed)
     else if f = some "pending" then l.filter (fun t => !t.completed)
     else l) = l.filter (fun t => matchesFilter f t) := by
  by_cases h1 : f = some "completed"
  · rw [if_pos h1]
    apply List.filter_congr
    intro x _
    simp [matchesFilter, h1]
  · rw [if_neg h1]
    by_cases h2 : f = some "pending"
    · rw [if_pos h2]
      apply List.filter_congr
      intro x _
      simp [matchesFilter, h1, h2]
    · rw [if_neg h2]
      exact ((List.filter_congr
        (fun x _ => by simp [matchesFilter, h1, h2])).trans
          (List.filter_true l)).symm

/-- C10: `list(userId, filter, search)` returns the user todos filtered
by the conjunction of the completion restriction (`completed` / `pending`,
any other or absent value applies no filter) and the case-folded substring
restriction of the trimmed search string (absent or empty search applies
no restriction); on the `[Buy milk (pending), Buy eggs (completed)]`
fixture, `list(U, filter=pending, search="buy")` returns exactly the first
record. -/
theorem c10_list_filter_search (s : Sys) (u : String) (f q : Option String) :
    (listTodos s u f q).1 =
      (userView s u).todos.filter
        (fun t => matchesFilter f t && matchesSearch q t) ∧
    (listTodos c10DemoSys "iris-0009" (some "pending") (some "buy")).1 =
      [c10Milk] := by
  constructor
  · cases q with
    | none =>
      simp only [listTodos]
      rw [show (loadUserTodos s u).1 = userView s u from rfl, filterStep_eq]
      apply List.filter_congr
      intro x _
      simp [matchesSearch]
    | some qs =>
      simp only [listTodos]
      rw [show (loadUserTodos s u).1 = userView s u from rfl]
      by_cases hq : qs = ""
      · rw [if_pos hq, filterStep_eq]
        apply List.filter_congr
        intro x _
        simp [matchesSearch, hq]
      · rw [if_neg hq, filterStep_eq, List.filter_filter]
        apply List.filter_congr
        intro x _
        simp [matchesSearch, hq, Bool.and_comm]
  · decide

/-! ## Claim C1: id allocation -/

/-- C1: starting from any state whose cache entries and parseable durable
slots satisfy the allocator invariant and whose durable slots are all
parseable (true of every state a fresh deployment reaches, since the
process only ever writes parseable snapshots), any request sequence gives:
the ids returned by the create calls for a fixed `userId` are pairwise
distinct and strictly increasing in call order; every id ever returned to
that user is strictly below the user final `nextId` (so deletion never
lets an id be reused); and in the resulting state every user resolved
state again satisfies `id < nextId` for every record — the invariant is
preserved by create, update and delete. -/
theorem c1_id_allocation (s : Sys) (u : String) (ops : List Op)
    (hinv : SysInv s) (hnc : NoCorrupt s) :
    List.Pairwise (· < ·) (createdIds s u ops) ∧
    (∀ i ∈ createdIds s u ops, i < (userView (runOps s ops) u).nextId) ∧
    (∀ v, InvD (userView (runOps s ops) v)) ∧
    SysInv (runOps s ops) := by
  obtain ⟨hpair, hbound⟩ := createdIds_spec u ops s hinv hnc
  have hinv2 := runOps_sysInv ops s hinv hnc
  exact ⟨hpair, fun i hi => (hbound i hi).2, fun v => invD_userView hinv2 v, hinv2⟩

/-- C1, witness: the theorem applied to a fresh deployment and the demo
request sequence; the three creates for alice return 0, 1, 2 even though
the interleaved delete removed id 0. -/
theorem c1_id_allocation_witness :
    SysInv emptySys ∧ NoCorrupt emptySys ∧
    createdIds emptySys "alice-0001" c1DemoOps = [0, 1, 2] ∧
    List.Pairwise (· < ·) (createdIds emptySys "alice-0001" c1DemoOps) ∧
    (∀ i ∈ createdIds emptySys "alice-0001" c1DemoOps,
      i < (userView (runOps emptySys c1DemoOps) "alice-0001").nextId) ∧
    (∀ v, InvD (userView (runOps emptySys c1DemoOps) v)) ∧
    SysInv (runOps emptySys c1DemoOps) :=
  have hsi : SysInv emptySys :=
    ⟨fun _ _ hcon => Option.noConfusion hcon, fun _ _ hcon => Option.noConfusion hcon⟩
  have hnc : NoCorrupt emptySys := fun _ hcon => Option.noConfusion hcon
  have hmain := c1_id_allocation emptySys "alice-0001" c1DemoOps hsi hnc
  ⟨hsi, hnc, by decide, hmain.1, hmain.2.1, hmain.2.2.1, hmain.2.2.2⟩

/-! ## Claim C2: cross-user isolation -/

/-- C2: for distinct users `A ≠ B`, a create, update or delete for `A`
(with any durable-write outcome) neither reads nor writes the cache of `B`
entry or durable slot, and leaves the observable list / get / stats
results for `B` unchanged. -/
theorem c2_isolation (s : Sys) (A B : String) (hAB : A ≠ B)
    (ok : Bool) (title : String) (c : Bool) (pr : Priority) (now : String)
    (uid did : Nat) (p : TodoPatch) (f q : Option String) (gid : Nat) :
    ((createTodo ok s A title c pr now).2.cache B = s.cache B ∧
     (createTodo ok s A title c pr now).2.disk B = s.disk B ∧
     (listTodos (createTodo ok s A title c pr now).2 B f q).1 = (listTodos s B f q).1 ∧
     (getTodo (createTodo ok s A title c pr now).2 B gid).1 = (getTodo s B gid).1 ∧
     (statsTodos (createTodo ok s A title c pr now).2 B).1 = (statsTodos s B).1) ∧
    ((updateTodo ok s A uid p).2.cache B = s.cache B ∧
     (updateTodo ok s A uid p).2.disk B = s.disk B ∧
     (listTodos (updateTodo ok s A uid p).2 B f q).1 = (listTodos s B f q).1 ∧
     (getTodo (updateTodo ok s A uid p).2 B gid).1 = (getTodo s B gid).1 ∧
     (statsTodos (updateTodo ok s A uid p).2 B).1 = (statsTodos s B).1) ∧
    ((deleteTodo ok s A did).2.cache B = s.cache B ∧
     (deleteTodo ok s A did).2.disk B = s.disk B ∧
     (listTodos (deleteTodo ok s A did).2 B f q).1 = (listTodos s B f q).1 ∧
     (getTodo (deleteTodo ok s A did).2 B gid).1 = (getTodo s B gid).1 ∧
     (statsTodos (deleteTodo ok s A did).2 B).1 = (statsTodos s B).1) := by
  have hBA : B ≠ A := Ne.symm hAB
  have h1 : userView (createTodo ok s A title c pr now).2 B = userView s B :=
    createTodo_userView_other ok title c pr now hBA
  have h2 : userView (updateTodo ok s A uid p).2 B = userView s B :=
    userView_congr B (updateTodo_cache_other ok uid p hBA)
      (updateTodo_disk_other ok uid p hBA)
  have h3 : userView (deleteTodo ok s A did).2 B = userView s B :=
    userView_congr B (deleteTodo_cache_other ok did hBA)
      (deleteTodo_disk_other ok did hBA)
  exact ⟨⟨createTodo_cache_other ok title c pr now hBA,
      createTodo_disk_other ok title c pr now hBA,
      listTodos_fst_congr h1 f q, getTodo_fst_congr h1 gid, statsTodos_fst_congr h1⟩,
    ⟨updateTodo_cache_other ok uid p hBA, updateTodo_disk_other ok uid p hBA,
      listTodos_fst_congr h2 f q, getTodo_fst_congr h2 gid, statsTodos_fst_congr h2⟩,
    ⟨deleteTodo_cache_other ok did hBA, deleteTodo_disk_other ok did hBA,
      listTodos_fst_congr h3 f q, getTodo_fst_congr h3 gid, statsTodos_fst_congr h3⟩⟩

/-- C2, witness: a create for alice does not disturb the stats of henry
snapshot nor his cache entry. -/
theorem c2_isolation_witness :
    "alice-0001" ≠ "henry-0008" ∧
    (createTodo true c9DemoSys "alice-0001" "x" false Priority.low "t").2.cache "henry-0008" =
      c9DemoSys.cache "henry-0008" ∧
    (statsTodos (createTodo true c9DemoSys "alice-0001" "x" false Priority.low "t").2
        "henry-0008").1 = (statsTodos c9DemoSys "henry-0008").1 :=
  have hmain := c2_isolation c9DemoSys "alice-0001" "henry-0008" (by decide)
    true "x" false Priority.low "t" 0 0 ⟨none, none, none⟩ none none 1
  ⟨by decide, hmain.1.1, hmain.1.2.2.2.2⟩

/-! ## Claim C5: round trip through the durable store -/

/-- C5: if the user resolved state satisfies the allocator invariant,
then after `create(U, title) → T` and a simulated process restart (cache
dropped, durable slot kept), `get(U, T.id)` returns exactly `T` — every
field of the record survives the serialize-then-deserialize round trip. -/
theorem c5_round_trip (s : Sys) (u : String) (title : String) (c : Bool)
    (pr : Priority) (now : String) (hinv : InvD (userView s u)) :
    (getTodo (dropCache (createTodo true s u title c pr now).2) u
        (createTodo true s u title c pr now).1.id).1 =
      some (createTodo true s u title c pr now).1 := by
  have hdisk : (createTodo true s u title c pr now).2.disk u =
      some (DiskSlot.good
        { todos := (userView s u).todos ++ [(createTodo true s u title c pr now).1],
          nextId := (userView s u).nextId + 1 }) := by
    rw [createTodo_disk_self]
    simp
  have hview : userView (dropCache (createTodo true s u title c pr now).2) u =
      { todos := (userView s u).todos ++ [(createTodo true s u title c pr now).1],
        nextId := (userView s u).nextId + 1 } := by
    rw [userView_eq]
    show resolveView none ((createTodo true s u title c pr now).2.disk u) = _
    rw [hdisk]
    simp [resolveView, normalizeSnapshot]
  show (userView (dropCache (createTodo true s u title c pr now).2) u).todos.find?
      (fun t => t.id = (createTodo true s u title c pr now).1.id) =
    some (createTodo true s u title c pr now).1
  rw [hview]
  dsimp only
  rw [find_skip_nonmatching _ _ ?hskip]
  case hskip =>
    intro x hx
    have hb := hinv x hx
    have hne : x.id ≠ (createTodo true s u title c pr now).1.id := by
      rw [createTodo_fst]
      dsimp only
      omega
    simp [hne]
  rw [List.find?_cons_of_pos _ (by simp)]

/-- C5, witness: the round trip on a fresh user. -/
theorem c5_round_trip_witness :
    InvD (userView emptySys "erin-0005") ∧
    (getTodo (dropCache (createTodo true emptySys "erin-0005" "X" false
        Priority.medium "t0").2) "erin-0005"
        (createTodo true emptySys "erin-0005" "X" false Priority.medium "t0").1.id).1 =
      some (createTodo true emptySys "erin-0005" "X" false Priority.medium "t0").1 :=
  have hinv : InvD (userView emptySys "erin-0005") :=
    fun t ht => absurd ht (List.not_mem_nil t)
  ⟨hinv, c5_round_trip emptySys "erin-0005" "X" false Priority.medium "t0" hinv⟩

/-! ## Claim C6: the update handler -/

/-- C6: `update(userId, id, patch)` locates the record by id.  When a
record with that id exists (first occurrence, with no earlier record of
the same id), each field present in the patch overwrites the old one, the
title being trimmed; absent fields are untouched; `id` and `createdAt` are
never changed; the new state is persisted; the updated record is returned.
When the id is absent, `NotFound` is returned, nothing is persisted and
the user observable state is unchanged.  Create trims the title the same
way update does. -/
theorem c6_update_semantics (s : Sys) (u : String) (id : Nat) (p : TodoPatch) :
    (∀ pre t post, (userView s u).todos = pre ++ t :: post →
      (∀ x ∈ pre, x.id ≠ id) → t.id = id →
      (updateTodo true s u id p).1 = MutationResult.affected (applyPatch t p) ∧
      (applyPatch t p).id = t.id ∧
      (applyPatch t p).title = (p.title.map jsTrim).getD t.title ∧
      (applyPatch t p).completed = p.completed.getD t.completed ∧
      (applyPatch t p).priority = p.priority.getD t.priority ∧
      (applyPatch t p).createdAt = t.createdAt ∧
      userView (updateTodo true s u id p).2 u =
        { todos := pre ++ applyPatch t p :: post, nextId := (userView s u).nextId } ∧
      (updateTodo true s u id p).2.disk u =
        some (DiskSlot.good
          { todos := pre ++ applyPatch t p :: post, nextId := (userView s u).nextId })) ∧
    ((∀ x ∈ (userView s u).todos, x.id ≠ id) →
      ∀ ok2, (updateTodo ok2 s u id p).1 = MutationResult.notFound ∧
        (updateTodo ok2 s u id p).2.disk = s.disk ∧
        userView (updateTodo ok2 s u id p).2 u = userView s u) ∧
    (∀ title c pr now, (createTodo true s u title c pr now).1.title = jsTrim title) := by
  refine ⟨?_, ?_, ?_⟩
  · intro pre t post hsplit hpre ht
    have hm : updateFirst p id (loadUserTodos s u).1.todos =
        some (applyPatch t p, pre ++ applyPatch t p :: post) := by
      show updateFirst p id (userView s u).todos = _
      rw [hsplit]
      exact updateFirst_spec p id pre t post hpre ht
    have heq : updateTodo true s u id p =
        (MutationResult.affected (applyPatch t p),
          mutateAndSave true (loadUserTodos s u).2 u
            (pre ++ applyPatch t p :: post) (loadUserTodos s u).1.nextId) := by
      simp only [updateTodo]
      rw [hm]
    refine ⟨by rw [heq], applyPatch_id t p, applyPatch_title t p,
      applyPatch_completed t p, applyPatch_priority t p, applyPatch_createdAt t p,
      ?_, ?_⟩
    · rw [heq]
      show userView (mutateAndSave true (loadUserTodos s u).2 u
        (pre ++ applyPatch t p :: post) (loadUserTodos s u).1.nextId) u = _
      rw [userView_eq, mutateAndSave_true_cache_self]
      rfl
    · rw [heq]
      show (mutateAndSave true (loadUserTodos s u).2 u
        (pre ++ applyPatch t p :: post) (loadUserTodos s u).1.nextId).disk u = _
      rw [mutateAndSave_disk_self]
      rw [if_pos rfl]
      rfl
  · intro hall ok2
    have hm : updateFirst p id (loadUserTodos s u).1.todos = none := by
      show updateFirst p id (userView s u).todos = none
      exact (updateFirst_eq_none p id _).mpr hall
    have heq : updateTodo ok2 s u id p =
        (MutationResult.notFound, (loadUserTodos s u).2) := by
      simp only [updateTodo]
      rw [hm]
    refine ⟨by rw [heq], ?_, ?_⟩
    · rw [heq]
      exact load_disk s u
    · rw [heq]
      exact load_userView s u
  · intro title c pr now
    rw [createTodo_fst]

/-- C6, witness: updating id 1 with an untrimmed title patch yields the
trimmed title, and an absent id yields `NotFound`. -/
theorem c6_update_semantics_witness :
    (userView c6DemoSys "judy-0010").todos = [] ++ c6Old :: [c6Keep] ∧
    (applyPatch c6Old c6Patch).title = "hi" ∧
    (applyPatch c6Old c6Patch).priority = c6Old.priority ∧
    (updateTodo true c6DemoSys "judy-0010" 1 c6Patch).1 =
      MutationResult.affected (applyPatch c6Old c6Patch) ∧
    (updateTodo true c6DemoSys "judy-0010" 99 c6Patch).1 =
      MutationResult.notFound :=
 by
  have hfound := ((c6_update_semantics c6DemoSys "judy-0010" 1 c6Patch).1
    [] c6Old [c6Keep] (by decide) (by decide) (by decide))
  have hmiss := ((c6_update_semantics c6DemoSys "judy-0010" 99 c6Patch).2.1
    (by decide) true)
  exact ⟨by decide, by decide, by decide, hfound.1, hmiss.1⟩

/-! ## Claim C8: mutations under a failed durable write -/

/-- C8, counterexample: when the user state came from the
corrupt-snapshot fallback (which is not cached) AND the durable write
fails, the create still returns its normal record but the in-memory state
does NOT reflect the mutation: the user has no cache entry afterwards and
the resolved view is still empty — refuting "every mutation ... the
in-memory cached state for that user reflects the completed mutation". -/
theorem c8_mutation_lost_counterexample :
    (createTodo false c8CorruptSys "grace-0007" "task" false Priority.medium "t").1 =
      { id := 1, title := "task", completed := false, priority := Priority.medium,
        createdAt := "t" } ∧
    (createTodo false c8CorruptSys "grace-0007" "task" false Priority.medium "t").2.cache
      "grace-0007" = none ∧
    userView (createTodo false c8CorruptSys "grace-0007" "task" false
      Priority.medium "t").2 "grace-0007" = { todos := [], nextId := 1 } := by
  refine ⟨?_, ?_, ?_⟩ <;> decide

/-- C8, amended: when the durable write fails, create / update / delete
still return their normal successful results and the durable store is
untouched; the in-memory cached state reflects the completed mutation
provided the user state did not come from the (uncached)
corrupt-snapshot fallback — i.e. whenever the user is already cached or
their durable slot is not corrupt. -/
theorem c8_persist_failure (s : Sys) (u : String)
    (h : s.cache u = none → s.disk u ≠ some DiskSlot.corrupt)
    (title : String) (c : Bool) (pr : Priority) (now : String)
    (id : Nat) (p : TodoPatch) :
    ((createTodo false s u title c pr now).1 =
      { id := (userView s u).nextId, title := jsTrim title, completed := c,
        priority := pr, createdAt := now } ∧
     (createTodo false s u title c pr now).2.cache u =
      some { todos := (userView s u).todos ++ [(createTodo false s u title c pr now).1],
             nextId := (userView s u).nextId + 1 } ∧
     (createTodo false s u title c pr now).2.disk = s.disk) ∧
    (∀ r, updateFirst p id (userView s u).todos = some r →
      (updateTodo false s u id p).1 = MutationResult.affected r.1 ∧
      (updateTodo false s u id p).2.cache u =
        some { todos := r.2, nextId := (userView s u).nextId } ∧
      (updateTodo false s u id p).2.disk = s.disk) ∧
    (∀ r, removeFirst id (userView s u).todos = some r →
      (deleteTodo false s u id).1 = MutationResult.affected r.1 ∧
      (deleteTodo false s u id).2.cache u =
        some { todos := r.2, nextId := (userView s u).nextId } ∧
      (deleteTodo false s u id).2.disk = s.disk) := by
  have hcs : ((loadUserTodos s u).2.cache u).isSome := by
    rw [load_cache_keeps h]
    rfl
  refine ⟨⟨createTodo_fst false s u title c pr now, ?_, createTodo_false_disk s u title c pr now⟩, ?_, ?_⟩
  · simp only [createTodo]
    rw [mutateAndSave_cache_self false _ _ hcs]
    rfl
  · intro r hm2
    have hm : updateFirst p id (loadUserTodos s u).1.todos = some r := hm2
    have heq : updateTodo false s u id p =
        (MutationResult.affected r.1,
          mutateAndSave false (loadUserTodos s u).2 u r.2 (loadUserTodos s u).1.nextId) := by
      simp only [updateTodo]
      rw [hm]
    refine ⟨by rw [heq], ?_, ?_⟩
    · rw [heq]
      show (mutateAndSave false (loadUserTodos s u).2 u r.2
        (loadUserTodos s u).1.nextId).cache u = _
      rw [mutateAndSave_cache_self false _ _ hcs]
      rfl
    · rw [heq]
      show (mutateAndSave false (loadUserTodos s u).2 u r.2
        (loadUserTodos s u).1.nextId).disk = s.disk
      rw [mutateAndSave_false_disk, load_disk]
  · intro r hm2
    have hm : removeFirst id (loadUserTodos s u).1.todos = some r := hm2
    have heq : deleteTodo false s u id =
        (MutationResult.affected r.1,
          mutateAndSave false (loadUserTodos s u).2 u r.2 (loadUserTodos s u).1.nextId) := by
      simp only [deleteTodo]
      rw [hm]
    refine ⟨by rw [heq], ?_, ?_⟩
    · rw [heq]
      show (mutateAndSave false (loadUserTodos s u).2 u r.2
        (loadUserTodos s u).1.nextId).cache u = _
      rw [mutateAndSave_cache_self false _ _ hcs]
      rfl
    · rw [heq]
      show (mutateAndSave false (loadUserTodos s u).2 u r.2
        (loadUserTodos s u).1.nextId).disk = s.disk
      rw [mutateAndSave_false_disk, load_disk]

/-- C8, witness: a failed durable write on a cached user still returns the
new record, updates the cache, and leaves the durable store untouched. -/
theorem c8_persist_failure_witness :
    (c8DemoSys.cache "kate-0011" = none → c8DemoSys.disk "kate-0011" ≠ some DiskSlot.corrupt) ∧
    (createTodo false c8DemoSys "kate-0011" "new" false Priority.low "t9").2.cache "kate-0011" =
      some { todos := (userView c8DemoSys "kate-0011").todos ++
               [(createTodo false c8DemoSys "kate-0011" "new" false Priority.low "t9").1],
             nextId := (userView c8DemoSys "kate-0011").nextId + 1 } ∧
    (createTodo false c8DemoSys "kate-0011" "new" false Priority.low "t9").2.disk =
      c8DemoSys.disk :=
  have hmain := c8_persist_failure c8DemoSys "kate-0011" (by decide)
    "new" false Priority.low "t9" 0 ⟨none, none, none⟩
  ⟨by decide, hmain.1.2.1, hmain.1.2.2⟩

end TodoServer
